import Mathlib

/-!
# Decentroneum Wallet — verification of the Wallet Security & dApp Bridge Engine

Shallow embedding of the wallet's core code:

* `src/src/lib/vault.ts` (`saveVaultV1`, `unlockVaultV1`, `clearVault`) together with
  `src/lib/kdf.ts` (`deriveKeyScrypt`, `DEFAULT_SCRYPT`);
* `src/src/lib/wallet.ts` (`estimateFees`);
* `src/lib/permissions.ts` (`isDomainConnected`, `setDomainConnected`, `disconnectDomain`);
* `src/state/session.ts` (`lock`, `resetDeviceWallet`);
* `src/app/browser/web.tsx` (`handleRpc`, `beginTxApproval`, `approveTx`, `denyTx`,
  the connect-approval sheet handlers, and the reply channel `respondRpc`).

Machine integers are `Nat` (JavaScript `bigint` values in this code are non-negative
chain quantities).  Fallible code returns `Option`/`Except`.  Asynchronous network
results (fee data, gas estimates, send outcomes) are passed in as explicit inputs.

The external cryptographic primitives (`scrypt` from scrypt-js, `nacl.secretbox` /
`nacl.secretbox.open` from tweetnacl) are not code of this repository; they are
modelled as an ideal key-derivation function and an ideal authenticated cipher:
the KDF is injective in the passcode for a fixed salt, and a secretbox ciphertext
carries a two-element authentication tag binding key, nonce and message, so that
changing any single element can never yield a valid ciphertext under any key.
This captures exactly the interface guarantees of the real primitives that the
vault code relies on (round-trip decryption, wrong-key failure, tamper detection).
Base64 transport encoding (`b64`/`unb64`, a bijection) is elided: stored nonce and
ciphertext are kept as byte lists.
-/

/-- Injective encoding of a byte list into a single `Nat`, used by the idealized
cryptographic primitives below. -/
def encodeList : List Nat → Nat
  | [] => 0
  | a :: l => Nat.pair a (encodeList l) + 1

theorem encodeList_injective : Function.Injective encodeList := by
  intro l1 l2 h
  induction l1 generalizing l2 with
  | nil =>
    cases l2 with
    | nil => rfl
    | cons b t => simp [encodeList] at h
  | cons a t ih =>
    cases l2 with
    | nil => simp [encodeList] at h
    | cons b t2 =>
      simp only [encodeList, Nat.add_right_cancel_iff] at h
      have := Nat.pair_eq_pair.mp h
      rw [this.1, ih this.2]

/-- UTF-8 encoding of a string (`TextEncoder.encode`), modelled as the list of
character code points. -/
def strToBytes (s : String) : List Nat :=
  s.toList.map Char.toNat

/-- Inverse of `strToBytes` (`TextDecoder.decode`). -/
def bytesToStr (l : List Nat) : String :=
  String.mk (l.map Char.ofNat)

theorem bytesToStr_strToBytes (s : String) : bytesToStr (strToBytes s) = s := by
  have hid : Char.ofNat ∘ Char.toNat = id := funext Char.ofNat_toNat
  cases s with
  | mk data =>
    simp [bytesToStr, strToBytes, List.map_map, hid]

theorem strToBytes_injective : Function.Injective strToBytes := by
  intro s1 s2 h
  have := congrArg bytesToStr h
  rwa [bytesToStr_strToBytes, bytesToStr_strToBytes] at this

/-- `ScryptParams` from `src/lib/kdf.ts`. -/
structure ScryptParams where
  N : Nat
  r : Nat
  p : Nat
  dkLen : Nat
deriving DecidableEq, Repr

/-- `DEFAULT_SCRYPT` from `src/lib/kdf.ts`: `{ N: 16384, r: 8, p: 1, dkLen: 32 }`. -/
def DEFAULT_SCRYPT : ScryptParams := ⟨16384, 8, 1, 32⟩

/-- `deriveKeyScrypt` from `src/lib/kdf.ts`, idealized: the derived key is an
injective function of the passcode, salt and parameters. -/
def deriveKeyScrypt (passcode : String) (salt : List Nat) (params : ScryptParams) : Nat :=
  Nat.pair (encodeList (strToBytes passcode))
    (Nat.pair (encodeList salt)
      (Nat.pair params.N (Nat.pair params.r (Nat.pair params.p params.dkLen))))

theorem deriveKeyScrypt_passcode_injective {p1 p2 : String} (salt : List Nat)
    (params : ScryptParams) (h : deriveKeyScrypt p1 salt params = deriveKeyScrypt p2 salt params) :
    p1 = p2 := by
  unfold deriveKeyScrypt at h
  have h1 := (Nat.pair_eq_pair.mp h).1
  exact strToBytes_injective (encodeList_injective h1)

/-- `nacl.secretbox` (tweetnacl), idealized authenticated encryption: the
ciphertext is a two-element authentication tag followed by the message bytes.
Each tag element binds the key, so that changing a single element of the
ciphertext can never produce a ciphertext that verifies under any key. -/
def secretbox (msg : List Nat) (nonce : List Nat) (key : Nat) : List Nat :=
  Nat.pair key (encodeList (nonce ++ msg)) :: Nat.pair (key + 1) (encodeList msg) :: msg

/-- `nacl.secretbox.open` (tweetnacl), idealized: verifies both tag elements
against the supplied key and nonce and returns the message, or `none` on any
mismatch (the real primitive's tag-check failure). -/
def secretboxOpen (c : List Nat) (nonce : List Nat) (key : Nat) : Option (List Nat) :=
  match c with
  | t1 :: t2 :: m =>
    if t1 = Nat.pair key (encodeList (nonce ++ m)) ∧ t2 = Nat.pair (key + 1) (encodeList m)
    then some m else none
  | _ => none

theorem secretboxOpen_secretbox (msg nonce : List Nat) (key : Nat) :
    secretboxOpen (secretbox msg nonce key) nonce key = some msg := by
  simp [secretbox, secretboxOpen]

/-- `VaultV1` from `src/src/lib/vault.ts`: version, KDF config (`alg: "scrypt"`
fixed), box (nonce + ciphertext) and creation metadata. -/
structure VaultV1 where
  v : Nat
  kdfParams : ScryptParams
  kdfSalt : List Nat
  boxNonce : List Nat
  boxCiphertext : List Nat
  createdAt : String
deriving DecidableEq, Repr

/-- `saveVaultV1` from `src/src/lib/vault.ts`.  The randomly generated salt and
nonce and the creation timestamp are explicit inputs. -/
def saveVaultV1 (mnemonic passcode : String) (salt nonce : List Nat) (createdAt : String) :
    VaultV1 :=
  let key := deriveKeyScrypt passcode salt DEFAULT_SCRYPT
  { v := 1
    kdfParams := DEFAULT_SCRYPT
    kdfSalt := salt
    boxNonce := nonce
    boxCiphertext := secretbox (strToBytes mnemonic) nonce key
    createdAt := createdAt }

/-- `unlockVaultV1` from `src/src/lib/vault.ts`: loads the vault (given here as
an `Option`), re-derives the key with the stored salt/params and attempts
authenticated decryption; throws `"Vault not found"` / `"Invalid passcode"`. -/
def unlockVaultV1 (vault : Option VaultV1) (passcode : String) : Except String String :=
  match vault with
  | none => .error "Vault not found"
  | some v =>
    if v.v ≠ 1 then .error "Vault not found"
    else
      let key := deriveKeyScrypt passcode v.kdfSalt v.kdfParams
      match secretboxOpen v.boxCiphertext v.boxNonce key with
      | some opened => .ok (bytesToStr opened)
      | none => .error "Invalid passcode"

/-- **C2** — For every mnemonic `m` and passcode `p`, opening the vault produced
by `saveVaultV1 m p` with the same passcode `p` returns exactly `m` (round-trip
law); and for every wrong passcode `p' ≠ p`, opening that vault with `p'` fails
with the wrong-passcode error `"Invalid passcode"` and never returns a value. -/
theorem C2_holds (m p p' : String) (salt nonce : List Nat) (t : String) :
    unlockVaultV1 (some (saveVaultV1 m p salt nonce t)) p = .ok m ∧
    (p' ≠ p → unlockVaultV1 (some (saveVaultV1 m p salt nonce t)) p' =
      .error "Invalid passcode") := by
  constructor
  · simp [unlockVaultV1, saveVaultV1, secretboxOpen_secretbox, bytesToStr_strToBytes]
  · intro hne
    have hkey : deriveKeyScrypt p' salt DEFAULT_SCRYPT ≠ deriveKeyScrypt p salt DEFAULT_SCRYPT := by
      intro h
      exact hne (deriveKeyScrypt_passcode_injective salt DEFAULT_SCRYPT h)
    simp only [unlockVaultV1, saveVaultV1, secretbox, secretboxOpen]
    have hcond : ¬ (Nat.pair (deriveKeyScrypt p salt DEFAULT_SCRYPT)
        (encodeList (nonce ++ strToBytes m)) =
        Nat.pair (deriveKeyScrypt p' salt DEFAULT_SCRYPT)
          (encodeList (nonce ++ strToBytes m))) := by
      intro h
      exact hkey ((Nat.pair_eq_pair.mp h).1).symm
    simp [hcond]

/-- Witness for `C2_holds` at a concrete mnemonic, passcode and wrong passcode. -/
theorem C2_witness :
    unlockVaultV1 (some (saveVaultV1 "abandon ability" "1234" [3, 1] [7] "now")) "1234" =
      .ok "abandon ability" ∧
    unlockVaultV1 (some (saveVaultV1 "abandon ability" "1234" [3, 1] [7] "now")) "9999" =
      .error "Invalid passcode" := by
  refine ⟨(C2_holds "abandon ability" "1234" "9999" [3, 1] [7] "now").1, ?_⟩
  exact (C2_holds "abandon ability" "1234" "9999" [3, 1] [7] "now").2 (by decide)

theorem set_ne_self_of_ne (l : List Nat) (i b : Nat) (h : i < l.length)
    (hb : b ≠ l.getD i 0) : l.set i b ≠ l := by
  induction l generalizing i with
  | nil => exact absurd h (by simp)
  | cons a t ih =>
    cases i with
    | zero =>
      intro he
      simp only [List.set] at he
      exact hb (by simpa [List.getD] using (List.cons.injEq _ _ _ _ ▸ he).1)
    | succ n =>
      intro he
      simp only [List.set, List.cons.injEq, true_and] at he
      exact ih n (by simpa using h) (by simpa [List.getD] using hb) he

theorem secretboxOpen_tamper_ciphertext (msg nonce : List Nat) (key key2 : Nat) (i b : Nat)
    (hi : i < (secretbox msg nonce key).length)
    (hb : b ≠ (secretbox msg nonce key).getD i 0) :
    secretboxOpen ((secretbox msg nonce key).set i b) nonce key2 = none := by
  match i with
  | 0 =>
    simp only [secretbox, List.getD, List.get?, List.set] at hb ⊢
    simp only [secretboxOpen, ite_eq_right_iff]
    intro hcond
    obtain ⟨h1, h2⟩ := hcond
    have hk : key = key2 := by
      have := Nat.pair_eq_pair.mp h2
      omega
    exact absurd (hk ▸ h1) (by simpa using hb)
  | 1 =>
    simp only [secretbox, List.getD, List.get?, List.set] at hb ⊢
    simp only [secretboxOpen, ite_eq_right_iff]
    intro hcond
    obtain ⟨h1, h2⟩ := hcond
    have hk : key2 = key := (Nat.pair_eq_pair.mp h1).1.symm
    exact absurd (hk ▸ h2) (by simpa using hb)
  | (n + 2) =>
    simp only [secretbox, List.length_cons, List.set] at hi ⊢
    have hn : n < msg.length := by omega
    have hbm : b ≠ msg.getD n 0 := by
      simpa [secretbox, List.getD] using hb
    have hmsg : msg.set n b ≠ msg := set_ne_self_of_ne msg n b hn hbm
    simp only [secretboxOpen, ite_eq_right_iff]
    intro hcond
    obtain ⟨h1, _⟩ := hcond
    have := (Nat.pair_eq_pair.mp h1).2
    have happ := encodeList_injective this
    exact absurd (List.append_cancel_left happ).symm hmsg

theorem secretboxOpen_tamper_nonce (msg nonce : List Nat) (key key2 : Nat) (j b : Nat)
    (hj : j < nonce.length) (hb : b ≠ nonce.getD j 0) :
    secretboxOpen (secretbox msg nonce key) (nonce.set j b) key2 = none := by
  have hnon : nonce.set j b ≠ nonce := set_ne_self_of_ne nonce j b hj hb
  simp only [secretbox, secretboxOpen, ite_eq_right_iff]
  intro hcond
  obtain ⟨h1, _⟩ := hcond
  have := (Nat.pair_eq_pair.mp h1).2
  have happ := encodeList_injective this
  exact absurd (List.append_cancel_right happ.symm) hnon

/-- **C6** — For every persisted vault and every passcode (including the correct
one), changing any single byte of the stored ciphertext or of the stored nonce
causes the subsequent `unlockVaultV1` to fail with an error rather than return
any plaintext. -/
theorem C6_holds (m p p2 : String) (salt nonce : List Nat) (t : String) (i j b b' : Nat) :
    (i < (saveVaultV1 m p salt nonce t).boxCiphertext.length →
      b ≠ (saveVaultV1 m p salt nonce t).boxCiphertext.getD i 0 →
      unlockVaultV1
        (some { saveVaultV1 m p salt nonce t with
                boxCiphertext := (saveVaultV1 m p salt nonce t).boxCiphertext.set i b }) p2 =
        .error "Invalid passcode") ∧
    (j < nonce.length →
      b' ≠ nonce.getD j 0 →
      unlockVaultV1
        (some { saveVaultV1 m p salt nonce t with boxNonce := nonce.set j b' }) p2 =
        .error "Invalid passcode") := by
  constructor
  · intro hi hb
    simp only [saveVaultV1] at hi hb ⊢
    simp [unlockVaultV1,
      secretboxOpen_tamper_ciphertext (strToBytes m) nonce
        (deriveKeyScrypt p salt DEFAULT_SCRYPT)
        (deriveKeyScrypt p2 salt DEFAULT_SCRYPT) i b hi hb]
  · intro hj hb
    simp only [saveVaultV1]
    simp [unlockVaultV1,
      secretboxOpen_tamper_nonce (strToBytes m) nonce
        (deriveKeyScrypt p salt DEFAULT_SCRYPT)
        (deriveKeyScrypt p2 salt DEFAULT_SCRYPT) j b' hj hb]

/-- Witness for `C6_holds`: a concrete vault where flipping a ciphertext byte
and flipping a nonce byte both make unlock fail, even with the correct passcode. -/
theorem C6_witness :
    (2 < (saveVaultV1 "a" "x" [3] [5] "now").boxCiphertext.length ∧
      0 ≠ (saveVaultV1 "a" "x" [3] [5] "now").boxCiphertext.getD 2 0 ∧
      unlockVaultV1
        (some { saveVaultV1 "a" "x" [3] [5] "now" with
                boxCiphertext := (saveVaultV1 "a" "x" [3] [5] "now").boxCiphertext.set 2 0 }) "x" =
        .error "Invalid passcode") ∧
    (0 < ([5] : List Nat).length ∧
      6 ≠ ([5] : List Nat).getD 0 0 ∧
      unlockVaultV1
        (some { saveVaultV1 "a" "x" [3] [5] "now" with boxNonce := [5].set 0 6 }) "x" =
        .error "Invalid passcode") := by
  refine ⟨⟨by decide, by decide, ?_⟩, ⟨by decide, by decide, ?_⟩⟩
  · exact (C6_holds "a" "x" "x" [3] [5] "now" 2 0 0 6).1 (by decide) (by decide)
  · exact (C6_holds "a" "x" "x" [3] [5] "now" 2 0 0 6).2 (by decide) (by decide)

/-- JavaScript truthiness of an optional chain quantity (`bigint | null`):
`null` and `0n` are falsy. -/
def jsTruthyNat (o : Option Nat) : Bool :=
  match o with
  | some n => n ≠ 0
  | none => false

/-- The result of `provider.getFeeData()` (ethers `FeeData`): each field is a
`bigint` or `null`. -/
structure FeeData where
  maxFeePerGas : Option Nat
  maxPriorityFeePerGas : Option Nat
  gasPrice : Option Nat
deriving DecidableEq, Repr

inductive FeeMode where
  | eip1559
  | legacy
  | unknown
deriving DecidableEq, Repr

/-- Return shape of `estimateFees` from `src/src/lib/wallet.ts` (the union of the
three per-mode object shapes). -/
structure FeeQuote where
  gasLimit : Nat
  feeWei : Nat
  mode : FeeMode
  maxFeePerGas : Option Nat
  maxPriorityFeePerGas : Option Nat
  gasPrice : Option Nat
deriving DecidableEq, Repr

/-- `estimateFees` from `src/src/lib/wallet.ts`.  The network collaborator's
responses (`getFeeData`, `estimateGas`) are explicit inputs; a network throw is
outside this pure core (`EstimationFailed` propagates to the caller). -/
def estimateFees (feeData : FeeData) (gasLimit : Nat) : FeeQuote :=
  if jsTruthyNat feeData.maxFeePerGas ∧ jsTruthyNat feeData.maxPriorityFeePerGas then
    { gasLimit := gasLimit
      feeWei := gasLimit * feeData.maxFeePerGas.getD 0
      mode := .eip1559
      maxFeePerGas := feeData.maxFeePerGas
      maxPriorityFeePerGas := feeData.maxPriorityFeePerGas
      gasPrice := none }
  else if jsTruthyNat feeData.gasPrice then
    { gasLimit := gasLimit
      feeWei := gasLimit * feeData.gasPrice.getD 0
      mode := .legacy
      maxFeePerGas := none
      maxPriorityFeePerGas := none
      gasPrice := feeData.gasPrice }
  else
    { gasLimit := gasLimit
      feeWei := 0
      mode := .unknown
      maxFeePerGas := none
      maxPriorityFeePerGas := none
      gasPrice := none }

/-- **C9 counterexample** — The claim says the estimator returns the EIP-1559
mode whenever the network reports both `maxFeePerGas` and
`maxPriorityFeePerGas`.  The network can report `maxFeePerGas = 0` (a present
`bigint`), yet the code's JavaScript truthiness test (`feeData.maxFeePerGas &&
feeData.maxPriorityFeePerGas`, where `0n` is falsy) skips the EIP-1559 branch:
here both fields are reported but the result mode is `unknown`. -/
theorem C9_counterexample :
    (FeeData.mk (some 0) (some 7) none).maxFeePerGas.isSome = true ∧
    (FeeData.mk (some 0) (some 7) none).maxPriorityFeePerGas.isSome = true ∧
    (estimateFees (FeeData.mk (some 0) (some 7) none) 10).mode = .unknown ∧
    (estimateFees (FeeData.mk (some 0) (some 7) none) 10).mode ≠ .eip1559 := by
  refine ⟨rfl, rfl, rfl, by decide⟩

/-- **C9 (amended)** — The fee estimator returns the EIP-1559 mode with
`feeWei = gasLimit * maxFeePerGas` whenever the network reports *nonzero*
`maxFeePerGas` and `maxPriorityFeePerGas` (null or zero values are falsy and
skip the branch); otherwise the legacy mode with `feeWei = gasLimit * gasPrice`
whenever the network reports a nonzero `gasPrice`; and otherwise the unknown
mode with `feeWei = 0`.  In the two priced modes `feeWei` equals `gasLimit`
multiplied by the chosen fee-per-gas value. -/
theorem C9_holds (fd : FeeData) (gasLimit : Nat) :
    (∀ a b, fd.maxFeePerGas = some a → a ≠ 0 → fd.maxPriorityFeePerGas = some b → b ≠ 0 →
      (estimateFees fd gasLimit).mode = .eip1559 ∧
      (estimateFees fd gasLimit).feeWei = gasLimit * a ∧
      (estimateFees fd gasLimit).maxFeePerGas = some a ∧
      (estimateFees fd gasLimit).maxPriorityFeePerGas = some b) ∧
    (¬(jsTruthyNat fd.maxFeePerGas ∧ jsTruthyNat fd.maxPriorityFeePerGas) →
      ∀ g, fd.gasPrice = some g → g ≠ 0 →
      (estimateFees fd gasLimit).mode = .legacy ∧
      (estimateFees fd gasLimit).feeWei = gasLimit * g ∧
      (estimateFees fd gasLimit).gasPrice = some g) ∧
    (¬(jsTruthyNat fd.maxFeePerGas ∧ jsTruthyNat fd.maxPriorityFeePerGas) →
      ¬jsTruthyNat fd.gasPrice →
      (estimateFees fd gasLimit).mode = .unknown ∧
      (estimateFees fd gasLimit).feeWei = 0) := by
  refine ⟨?_, ?_, ?_⟩
  · intro a b ha ha0 hb hb0
    have hta : jsTruthyNat (some a) = true := by simp [jsTruthyNat, ha0]
    have htb : jsTruthyNat (some b) = true := by simp [jsTruthyNat, hb0]
    simp [estimateFees, ha, hb, hta, htb]
  · intro hnot g hg hg0
    have htg : jsTruthyNat (some g) = true := by simp [jsTruthyNat, hg0]
    simp [estimateFees, hnot, hg, htg]
  · intro hnot hgp
    simp [estimateFees, hnot, hgp]

/-- Witness for `C9_holds`: concrete fee data exercising all three branches. -/
theorem C9_witness :
    (estimateFees (FeeData.mk (some 3) (some 2) none) 10).mode = .eip1559 ∧
    (estimateFees (FeeData.mk (some 3) (some 2) none) 10).feeWei = 30 ∧
    (estimateFees (FeeData.mk none none (some 5)) 10).mode = .legacy ∧
    (estimateFees (FeeData.mk none none (some 5)) 10).feeWei = 50 ∧
    (estimateFees (FeeData.mk none none none) 10).mode = .unknown ∧
    (estimateFees (FeeData.mk none none none) 10).feeWei = 0 := by
  have h1 := (C9_holds (FeeData.mk (some 3) (some 2) none) 10).1 3 2 rfl
    (by decide) rfl (by decide)
  have h2 := (C9_holds (FeeData.mk none none (some 5)) 10).2.1 (by decide) 5 rfl (by decide)
  have h3 := (C9_holds (FeeData.mk none none none) 10).2.2 (by decide) (by decide)
  exact ⟨h1.1, h1.2.1, h2.1, h2.2.1, h3.1, h3.2⟩

/-- `SessionState` from `src/state/session.ts` (the data fields of the zustand
store; the in-memory mnemonic is `none` when locked). -/
structure SessionState where
  isUnlocked : Bool
  mnemonic : Option String
  address : Option String
  autoLockEnabled : Bool
  biometricEnabled : Bool
deriving DecidableEq, Repr

/-- `lock` from `src/state/session.ts`:
`set({ isUnlocked: false, mnemonic: null })` — a partial zustand update merged
into the existing state. -/
def SessionState.lock (s : SessionState) : SessionState :=
  { s with isUnlocked := false, mnemonic := none }

/-- `setUnlocked` from `src/state/session.ts`. -/
def SessionState.setUnlocked (s : SessionState) (mnemonic address : String) : SessionState :=
  { s with isUnlocked := true, mnemonic := some mnemonic, address := some address }

/-- **C10** — For every session state, `lock` sets `isUnlocked` to `false` and
the in-memory mnemonic to `null`, and leaves every other session field
unchanged: `address`, `autoLockEnabled` and `biometricEnabled` keep their
previous values. -/
theorem C10_holds (s : SessionState) :
    s.lock.isUnlocked = false ∧
    s.lock.mnemonic = none ∧
    s.lock.address = s.address ∧
    s.lock.autoLockEnabled = s.autoLockEnabled ∧
    s.lock.biometricEnabled = s.biometricEnabled :=
  ⟨rfl, rfl, rfl, rfl, rfl⟩

/-- `{ connected: boolean; updatedAt: string }`, the per-domain record in
`src/lib/permissions.ts`. -/
structure DomainEntry where
  connected : Bool
  updatedAt : String
deriving DecidableEq, Repr

/-- The persisted JSON object map `Record<string, {connected, updatedAt}>` of
`src/lib/permissions.ts`, as an association list with JS-object key semantics
(assignment replaces in place, `delete` removes). -/
def PermStore := List (String × DomainEntry)

def permLookup (s : PermStore) (domain : String) : Option DomainEntry :=
  match s with
  | [] => none
  | (k, e) :: rest => if k = domain then some e else permLookup rest domain

/-- `isDomainConnected` from `src/lib/permissions.ts`: `!!s[domain]?.connected`. -/
def isDomainConnected (s : PermStore) (domain : String) : Bool :=
  match permLookup s domain with
  | some e => e.connected
  | none => false

def permInsert (s : PermStore) (domain : String) (e : DomainEntry) : PermStore :=
  match s with
  | [] => [(domain, e)]
  | (k, e') :: rest =>
    if k = domain then (k, e) :: rest else (k, e') :: permInsert rest domain e

/-- `setDomainConnected` from `src/lib/permissions.ts`:
`s[domain] = { connected, updatedAt }` — writes an entry for either flag value.
The timestamp is an explicit input. -/
def setDomainConnected (s : PermStore) (domain : String) (connected : Bool)
    (updatedAt : String) : PermStore :=
  permInsert s domain ⟨connected, updatedAt⟩

/-- `disconnectDomain` from `src/lib/permissions.ts`: `delete s[domain]`. -/
def disconnectDomain (s : PermStore) (domain : String) : PermStore :=
  s.filter (fun kv => kv.1 ≠ domain)

/-- The secure-storage state touched by the vault/session wipe code paths:
`clearVault` (`src/src/lib/vault.ts`) and `resetDeviceWallet`
(`src/state/session.ts`).  The domain-permission map lives in the same storage
under the key `"dw_connected_domains_v1"`. -/
structure DeviceStorage where
  vault : Option VaultV1
  hasWallet : Bool
  biometricEnabled : Bool
  autoLockEnabled : Bool
  bioPin : Option String
  permissions : PermStore

/-- `clearVault` from `src/src/lib/vault.ts`: deletes `VAULT_V1`, `HAS_WALLET`
and `BIOMETRIC_ENABLED`; it does not touch the domain-permission key. -/
def clearVault (st : DeviceStorage) : DeviceStorage :=
  { st with vault := none, hasWallet := false, biometricEnabled := false }

/-- `resetDeviceWallet` from `src/state/session.ts`: `clearVault()` followed by
deletion of `AUTOLOCK_ENABLED`, `BIO_PIN` and `BIOMETRIC_ENABLED`; the
domain-permission key is not deleted. -/
def resetDeviceWallet (st : DeviceStorage) : DeviceStorage :=
  let st1 := clearVault st
  { st1 with autoLockEnabled := false, bioPin := none, biometricEnabled := false }

theorem permLookup_insert_self (s : PermStore) (d : String) (e : DomainEntry) :
    permLookup (permInsert s d e) d = some e := by
  induction s with
  | nil => simp [permInsert, permLookup]
  | cons kv rest ih =>
    by_cases h : kv.1 = d
    · simp [permInsert, permLookup, h]
    · simp [permInsert, permLookup, h, ih]

theorem permLookup_erase_self (s : PermStore) (d : String) :
    permLookup (disconnectDomain s d) d = none := by
  induction s with
  | nil => simp [disconnectDomain, permLookup]
  | cons kv rest ih =>
    by_cases h : kv.1 = d
    · simpa [disconnectDomain, permLookup, h] using ih
    · simpa [disconnectDomain, permLookup, h] using ih

/-- **C8 counterexample** — The claim states that a domain is connected iff an
entry for it is present, and that entries are deleted on full wallet wipe.
Both parts fail on the code: `setDomainConnected(d, false)` *writes* an entry
(with `connected: false`) whose presence contradicts `isConnected`, and neither
`clearVault` nor `resetDeviceWallet` deletes the `"dw_connected_domains_v1"`
key, so a connected entry survives a full wallet wipe. -/
theorem C8_counterexample :
    (permLookup (setDomainConnected [] "dapp.example" false "t0") "dapp.example" =
      some ⟨false, "t0"⟩ ∧
     isDomainConnected (setDomainConnected [] "dapp.example" false "t0") "dapp.example" =
      false) ∧
    (resetDeviceWallet
        { vault := none, hasWallet := true, biometricEnabled := true,
          autoLockEnabled := true, bioPin := none,
          permissions := [("dapp.example", ⟨true, "t1"⟩)] }).permissions =
      [("dapp.example", ⟨true, "t1"⟩)] := by
  exact ⟨⟨rfl, rfl⟩, rfl⟩

/-- **C8 (amended)** — The domain-permission store satisfies: a domain is
connected iff an entry with `connected = true` is present (entries with
`connected = false` may be present without being connected).  Entries are
written by `setDomainConnected` (approved connect calls it with `true`) and
deleted by `disconnectDomain`; a full wallet wipe (`clearVault` /
`resetDeviceWallet`) leaves the permission store untouched, so permission
entries survive a wipe. -/
theorem C8_holds (s : PermStore) (d d' : String) (c : Bool) (t : String)
    (st : DeviceStorage) :
    (isDomainConnected s d = true ↔ ∃ u, permLookup s d = some ⟨true, u⟩) ∧
    permLookup (setDomainConnected s d c t) d = some ⟨c, t⟩ ∧
    permLookup (disconnectDomain s d') d' = none ∧
    isDomainConnected (disconnectDomain s d') d' = false ∧
    (clearVault st).permissions = st.permissions ∧
    (resetDeviceWallet st).permissions = st.permissions := by
  refine ⟨?_, permLookup_insert_self s d ⟨c, t⟩, permLookup_erase_self s d',
    ?_, rfl, rfl⟩
  · constructor
    · intro h
      unfold isDomainConnected at h
      split at h
      · next e he =>
          refine ⟨e.updatedAt, ?_⟩
          rw [he]
          obtain ⟨c, u⟩ := e
          simp_all
      · next he => simp at h
    · rintro ⟨u, hu⟩
      simp [isDomainConnected, hu]
  · simp [isDomainConnected, permLookup_erase_self]

/-- `String.prototype.toLowerCase` as used for address comparison. -/
def asciiLower (s : String) : String :=
  String.mk (s.toList.map Char.toLower)

/-- JavaScript truthiness of an optional string: `null`, `undefined` and `""`
are falsy. -/
def jsTruthyStr (o : Option String) : Bool :=
  match o with
  | some s => s ≠ ""
  | none => false

/-- An `eth_call` / `eth_estimateGas` call object as the page supplies it
(`from`/`to`/`data`/`value` fields). -/
structure CallObj where
  fromAddr : Option String
  toAddr : Option String
  dataHex : Option String
  valueHex : Option String
deriving DecidableEq, Repr

/-- One element of an RPC `params` array: a string, an object, or a nullish
value. -/
inductive RpcParam where
  | pstr (s : String)
  | pobj (o : CallObj)
  | pnull
deriving DecidableEq, Repr

/-- `PUBLIC_RPC_METHODS` from `src/app/browser/web.tsx`. -/
def PUBLIC_RPC_METHODS : List String :=
  ["web3_clientVersion", "eth_chainId", "net_version", "eth_blockNumber", "eth_gasPrice",
   "eth_feeHistory", "eth_getBlockByNumber", "eth_getBlockByHash", "eth_getTransactionByHash",
   "eth_getTransactionReceipt", "eth_getCode", "eth_getLogs"]

/-- `CONNECTED_READ_RPC_METHODS` from `src/app/browser/web.tsx`. -/
def CONNECTED_READ_RPC_METHODS : List String :=
  ["eth_getBalance", "eth_getTransactionCount", "eth_call", "eth_estimateGas"]

/-- `SIGN_METHODS` from `src/app/browser/web.tsx`. -/
def SIGN_METHODS : List String :=
  ["personal_sign", "eth_signTypedData", "eth_signTypedData_v4"]

def isPublicRpc (method : String) : Bool := PUBLIC_RPC_METHODS.contains method

def isConnectedReadRpc (method : String) : Bool := CONNECTED_READ_RPC_METHODS.contains method

def isSignMethod (method : String) : Bool := SIGN_METHODS.contains method

/-- Outcome of the connected-only read branch of `handleRpc`: either an
immediate error reply to the page with no network call (`respondRpc(id, null,
msg)`), or a `provider.send(method, params)` network call whose result is then
replied. -/
inductive ReadOutcome where
  | errorReply (msg : String)
  | networkCall (method : String) (params : List RpcParam)
deriving DecidableEq, Repr

/-- The connected-only read branch of `handleRpc` from `src/app/browser/web.tsx`
(lines 970–1006), for `method ∈ CONNECTED_READ_RPC_METHODS`: checks connection,
then per-method parameter validation — `eth_getBalance` and
`eth_getTransactionCount` require the address parameter to equal the wallet's
own address (case-insensitively), while `eth_call`/`eth_estimateGas` overwrite
the call object's `from` with the wallet address and send. -/
def handleConnectedRead (method : String) (params : List RpcParam) (connected : Bool)
    (address : Option String) : ReadOutcome :=
  if ¬connected ∨ ¬jsTruthyStr address then .errorReply "Not connected"
  else
    let a := address.getD ""
    if method = "eth_getBalance" ∨ method = "eth_getTransactionCount" then
      match params.head? with
      | some (.pstr target) =>
        if target = "" then .errorReply "Invalid params"
        else if asciiLower target ≠ asciiLower a then .errorReply "Unauthorized address"
        else .networkCall method params
      | _ => .errorReply "Invalid params"
    else if method = "eth_call" ∨ method = "eth_estimateGas" then
      match params with
      | .pobj o :: rest => .networkCall method (.pobj { o with fromAddr := some a } :: rest)
      | _ => .errorReply "Invalid params"
    else .errorReply ("Unsupported method: " ++ method)

/-- **C4 counterexample** — The claim says every connected-only read whose
address parameter differs from the wallet's address gets an `Unauthorized`
error reply and no network call.  For `eth_call` (and `eth_estimateGas`) the
code never compares the page-supplied `from` against the wallet address: it
silently overwrites `from` with the wallet address and performs the network
call.  Concretely, a connected page calling `eth_call` with a foreign `from`
produces a network call, not an error reply. -/
theorem C4_counterexample :
    handleConnectedRead "eth_call"
      [.pobj ⟨some "0xbbbbbbbbbbbbbbbbbbbbbbbbbbbbbbbbbbbbbbbb", some "0xcc", none, none⟩]
      true (some "0xaaaaaaaaaaaaaaaaaaaaaaaaaaaaaaaaaaaaaaaa") =
    .networkCall "eth_call"
      [.pobj ⟨some "0xaaaaaaaaaaaaaaaaaaaaaaaaaaaaaaaaaaaaaaaa", some "0xcc", none, none⟩] := by
  rfl

/-- **C4 (amended)** — For `eth_getBalance` and `eth_getTransactionCount` from a
connected origin, an address parameter differing (case-insensitively) from the
wallet's own address is rejected with the `"Unauthorized address"` error reply
and no network call is performed.  For `eth_call` and `eth_estimateGas` no
such check exists: the bridge overwrites the call object's `from` field with
the wallet's own address and performs the network call (so it still never
operates on behalf of a foreign address, but it does not reply Unauthorized). -/
theorem C4_holds (method : String) (params : List RpcParam) (a target : String)
    (o : CallObj) (rest : List RpcParam) :
    (method = "eth_getBalance" ∨ method = "eth_getTransactionCount" →
      params.head? = some (.pstr target) → target ≠ "" → a ≠ "" →
      asciiLower target ≠ asciiLower a →
      handleConnectedRead method params true (some a) = .errorReply "Unauthorized address") ∧
    (method = "eth_call" ∨ method = "eth_estimateGas" → a ≠ "" →
      handleConnectedRead method (.pobj o :: rest) true (some a) =
        .networkCall method (.pobj { o with fromAddr := some a } :: rest)) := by
  constructor
  · intro hm hp ht ha hne
    have hmne : ¬(method = "eth_call" ∨ method = "eth_estimateGas") := by
      rcases hm with h | h <;> simp [h]
    simp [handleConnectedRead, jsTruthyStr, ha, hm, hp, ht, hne]
  · intro hm ha
    have hmne : ¬(method = "eth_getBalance" ∨ method = "eth_getTransactionCount") := by
      rcases hm with h | h <;> simp [h]
    simp [handleConnectedRead, jsTruthyStr, ha, hm, hmne]

/-- Witness for `C4_holds`: a concrete unauthorized `eth_getBalance` and a
concrete `eth_call` with a foreign `from`. -/
theorem C4_witness :
    handleConnectedRead "eth_getBalance" [.pstr "0xBBbb000000000000000000000000000000000000"]
      true (some "0xaa00000000000000000000000000000000000000") =
      .errorReply "Unauthorized address" ∧
    handleConnectedRead "eth_call" [.pobj ⟨some "0xbb", none, none, none⟩, .pstr "latest"]
      true (some "0xaa00000000000000000000000000000000000000") =
      .networkCall "eth_call"
        [.pobj ⟨some "0xaa00000000000000000000000000000000000000", none, none, none⟩,
         .pstr "latest"] := by
  constructor
  · exact (C4_holds "eth_getBalance" [.pstr "0xBBbb000000000000000000000000000000000000"]
      "0xaa00000000000000000000000000000000000000" "0xBBbb000000000000000000000000000000000000"
      ⟨none, none, none, none⟩ []).1 (Or.inl rfl) rfl (by decide) (by decide) (by decide)
  · exact (C4_holds "eth_call" [] "0xaa00000000000000000000000000000000000000" ""
      ⟨some "0xbb", none, none, none⟩ [.pstr "latest"]).2 (Or.inl rfl) (by decide)

/-- Value of a hexadecimal digit character, or `none`. -/
def hexDigitVal (c : Char) : Option Nat :=
  if c.isDigit then some (c.toNat - 48)
  else if 'a' ≤ c ∧ c ≤ 'f' then some (c.toNat - 87)
  else if 'A' ≤ c ∧ c ≤ 'F' then some (c.toNat - 55)
  else none

def parseHexDigits : List Char → Nat → Option Nat
  | [], acc => some acc
  | c :: rest, acc =>
    match hexDigitVal c with
    | some v => parseHexDigits rest (acc * 16 + v)
    | none => none

def parseDecDigits : List Char → Nat → Option Nat
  | [], acc => some acc
  | c :: rest, acc =>
    if c.isDigit then parseDecDigits rest (acc * 10 + (c.toNat - 48))
    else none

/-- Parse a chain quantity supplied by the page: a `0x…` hex string or a
decimal string; any parse failure yields `none`. -/
def parseQuantity (s : String) : Option Nat :=
  match s.toList with
  | '0' :: 'x' :: ds => if ds = [] then none else parseHexDigits ds 0
  | [] => none
  | ds => parseDecDigits ds 0

/-- `ethers.isAddress` shape check: `0x` followed by exactly 40 hex digits.
(The EIP-55 keccak checksum that real ethers additionally applies to
mixed-case addresses is not modelled; this model is the superset that accepts
any 40-hex-digit string.) -/
def isAddress (s : String) : Bool :=
  match s.toList with
  | '0' :: 'x' :: rest => rest.length = 40 && rest.all (fun c => (hexDigitVal c).isSome)
  | _ => false

/-- A `0x…` hex data string. -/
def isHexData (s : String) : Bool :=
  match s.toList with
  | '0' :: 'x' :: rest => rest.all (fun c => (hexDigitVal c).isSome)
  | _ => false

/-- `ELECTRONEUM` from `src/lib/networks.ts`. -/
structure NetworkCfg where
  name : String
  chainId : Nat
  rpcUrl : String
  symbol : String
  decimals : Nat
  explorer : String
deriving DecidableEq, Repr

def ELECTRONEUM : NetworkCfg :=
  ⟨"Electroneum Mainnet", 52014, "https://rpc.ankr.com/electroneum", "ETN", 18,
   "https://blockexplorer.electroneum.com/"⟩

/-- A raw transaction object as supplied by the page in
`eth_sendTransaction` params (loosely typed, heterogeneous encodings). -/
structure RawTx where
  toAddr : Option String
  valueStr : Option String
  dataStr : Option String
  gasStr : Option String
  chainId : Option Nat
deriving DecidableEq, Repr

/-- The canonical signable request (`ethers.TransactionRequest` as used by
`web.tsx`): normalized fields plus the fee fields attached after estimation. -/
structure TxDraft where
  fromAddr : Option String
  toAddr : Option String
  value : Option Nat
  dataHex : Option String
  gasLimit : Option Nat
  maxFeePerGas : Option Nat
  maxPriorityFeePerGas : Option Nat
  gasPrice : Option Nat
  chainId : Nat
deriving DecidableEq, Repr

/-- Modelled from the spec: `normalizeDappTx` (the TransactionBuilder's
`normalize`, spec §4.5) is imported by `src/app/browser/web.tsx` from
`@/src/lib/wallet` but its definition is not among the provided sources.
Per the spec it converts heterogeneous page-supplied field encodings into
canonical typed fields, omits (never guesses) any field that fails to parse —
in particular a `to` that is not a well-formed address — and always overwrites
`chainId` with the wallet's fixed network id. -/
def normalizeDappTx (raw : RawTx) : TxDraft :=
  { fromAddr := none
    toAddr :=
      match raw.toAddr with
      | some s => if isAddress s then some s else none
      | none => none
    value := raw.valueStr.bind parseQuantity
    dataHex :=
      match raw.dataStr with
      | some s => if isHexData s then some s else none
      | none => none
    gasLimit := raw.gasStr.bind parseQuantity
    maxFeePerGas := none
    maxPriorityFeePerGas := none
    gasPrice := none
    chainId := ELECTRONEUM.chainId }

/-- An `eth_sendTransaction` RPC request from the page: id, origin, and the
params array of raw transaction objects. -/
structure TxRpc where
  id : Nat
  origin : String
  params : List RawTx
deriving DecidableEq, Repr

/-- Result of the synchronous validation prefix of `beginTxApproval`
(`src/app/browser/web.tsx` lines 778–810): either an immediate error reply via
`respondRpc(id, null, msg)` — issued *before* the `provider.getFeeData()` /
`provider.estimateGas()` calls and before any signing — or the transaction is
set as the pending approval (`setPendingTx`) and estimation begins. -/
inductive BeginTxResult where
  | replyErr (rid : Nat) (msg : String)
  | pend (rid : Nat) (draft : TxDraft)
deriving DecidableEq, Repr

/-- The validation prefix of `beginTxApproval` from `src/app/browser/web.tsx`:
checks the wallet is unlocked (`address`/`mnemonic` present), takes
`params[0]`, normalizes it, forces `from` to the wallet address, and rejects a
missing or invalid `to` before any estimation. -/
def beginTxApprovalResult (unlocked : Bool) (address : String) (rpc : TxRpc) : BeginTxResult :=
  if ¬unlocked then .replyErr rpc.id "Wallet locked"
  else
    match rpc.params.head? with
    | none => .replyErr rpc.id "Invalid transaction params"
    | some raw =>
      match ({ normalizeDappTx raw with fromAddr := some address } : TxDraft).toAddr with
      | none => .replyErr rpc.id "Missing or invalid 'to' address"
      | some t =>
        if ¬isAddress t then .replyErr rpc.id "Missing or invalid 'to' address"
        else .pend rpc.id { normalizeDappTx raw with fromAddr := some address }

/-- **C7** — For every external transaction object whose `to` field is missing
or not a well-formed address, processing the `eth_sendTransaction` request
fails closed with an error reply (`BeginTxResult.replyErr`, i.e. `respondRpc`
with an error) before any gas or fee estimation call and before any signing
step — estimation and signing are only reachable through the
`BeginTxResult.pend` branch. -/
theorem C7_holds (unlocked : Bool) (address : String) (rpc : TxRpc) (raw : RawTx)
    (hp : rpc.params.head? = some raw)
    (hto : ∀ s, raw.toAddr = some s → isAddress s = false) :
    ∃ msg, beginTxApprovalResult unlocked address rpc = .replyErr rpc.id msg := by
  by_cases hu : unlocked
  · have hnorm : (normalizeDappTx raw).toAddr = none := by
      unfold normalizeDappTx
      match hr : raw.toAddr with
      | none => simp
      | some s => simp [hto s hr]
    refine ⟨"Missing or invalid 'to' address", ?_⟩
    simp [beginTxApprovalResult, hu, hp, hnorm]
  · exact ⟨"Wallet locked", by simp [beginTxApprovalResult, hu]⟩

/-- Witness for `C7_holds`: a concrete transaction object with no `to` field
is rejected before estimation. -/
theorem C7_witness :
    ∃ msg,
      beginTxApprovalResult true "0xaaaaaaaaaaaaaaaaaaaaaaaaaaaaaaaaaaaaaaaa"
        ⟨1, "https://dapp.example", [⟨none, some "0x5", none, none, some 1⟩]⟩ =
      .replyErr 1 msg :=
  C7_holds true "0xaaaaaaaaaaaaaaaaaaaaaaaaaaaaaaaaaaaaaaaa"
    ⟨1, "https://dapp.example", [⟨none, some "0x5", none, none, some 1⟩]⟩
    ⟨none, some "0x5", none, none, some 1⟩ rfl (fun _ h => nomatch h)

/-- A reply delivered back to the page via `respondRpc(id, result, error)`
(`src/app/browser/web.tsx` lines 710–719), keyed by the request id. -/
structure Reply where
  rid : Nat
  result : Option String
  error : Option String
deriving DecidableEq, Repr

/-- The React state of the `eth_sendTransaction` flow in
`src/app/browser/web.tsx`: session flags, the current domain's connection
state, the connect-sheet origin and the request queued behind it
(`pendingOrigin`, `queuedRpc`), the pending transaction approval
(`pendingTx`), the fee-estimation continuations currently in flight
(`estimating` — each `beginTxApproval` call awaits
`getFeeData`/`estimateGas` and then runs its unconditional second
`setPendingTx`, line 832; completions are modelled in launch order), the
replies delivered so far, and every transaction handed to
`signer.sendTransaction`. -/
structure BridgeState where
  unlocked : Bool
  address : String
  connected : Bool
  pendingOrigin : Option String
  queuedRpc : Option TxRpc
  pendingTx : Option (TxRpc × TxDraft)
  estimating : List (TxRpc × TxDraft)
  replies : List Reply
  sendAttempts : List TxDraft
deriving DecidableEq, Repr

/-- `const txToSend = { ...pendingTx.tx, from: address, chainId:
ELECTRONEUM.chainId }` from `approveTx` (`src/app/browser/web.tsx` line 1019):
the transaction actually signed and broadcast always carries the wallet's
fixed network id. -/
def mkTxToSend (draft : TxDraft) (address : String) : TxDraft :=
  { draft with fromAddr := some address, chainId := ELECTRONEUM.chainId }

/-- `const txForFee = { ...normalized, gasLimit }` plus the fee-field
attachment of `beginTxApproval` (`src/app/browser/web.tsx` lines 810–820),
with the same JavaScript truthiness tests as `estimateFees`. -/
def attachFees (draft : TxDraft) (gasLimit : Nat) (fd : FeeData) : TxDraft :=
  if jsTruthyNat fd.maxFeePerGas ∧ jsTruthyNat fd.maxPriorityFeePerGas then
    { draft with gasLimit := some gasLimit, maxFeePerGas := fd.maxFeePerGas,
                 maxPriorityFeePerGas := fd.maxPriorityFeePerGas }
  else if jsTruthyNat fd.gasPrice then
    { draft with gasLimit := some gasLimit, gasPrice := fd.gasPrice }
  else
    { draft with gasLimit := some gasLimit }

/-- Synchronous effect of a `beginTxApproval` call on the component state:
on validation failure an error reply (`respondRpc`), otherwise the first
`setPendingTx` (line 802) and the launch of the awaited fee estimation,
whose continuation (the second, unconditional `setPendingTx` at line 832) is
recorded in `estimating` and fires later as the `estimateDone` event. -/
def beginTxStep (s : BridgeState) (r : TxRpc) : BridgeState :=
  match beginTxApprovalResult s.unlocked s.address r with
  | .replyErr rid msg => { s with replies := s.replies ++ [⟨rid, none, some msg⟩] }
  | .pend _ draft =>
    { s with pendingTx := some (r, draft), estimating := s.estimating ++ [(r, draft)] }

/-- Events of the `eth_sendTransaction` flow: an RPC arriving from the page
(`handleRpc`), completion of an in-flight fee estimation with the network's
answer — or its failure — as input (the `await`ed continuation inside
`beginTxApproval`), the hold-to-confirm approval of the pending transaction
with the network outcome of `signer.sendTransaction` as input (`approveTx`),
its rejection (`denyTx`, enabled while estimating: the sheet's Reject button
is only disabled by `isSending`, line 646), and the connect sheet's
approve/deny handlers which re-dispatch or reject the queued request. -/
inductive BridgeEv where
  | rpcSendTx (r : TxRpc)
  | estimateDone (ok : Bool) (gasLimit : Nat) (fd : FeeData)
  | approveTx (sendOk : Bool) (hash : String) (errMsg : String)
  | denyTx
  | approveConnect
  | denyConnect
deriving DecidableEq, Repr

/-- One step of the bridge, following `src/app/browser/web.tsx`:
`handleRpc` (lines 940–952) queues an `eth_sendTransaction` when the domain is
not connected and otherwise runs `beginTxApproval`; a completing fee
estimation runs `beginTxApproval`'s continuation, whose success path
*unconditionally* re-runs `setPendingTx` with the fee-attached draft
(line 832) even if the request was denied meanwhile, while its catch path
(lines 834–838) only updates fee display state; `approveTx`/`denyTx`
(lines 1013–1035) reply and clear `pendingTx`; the `ConnectSheet` handlers
(lines 1249–1274) clear `pendingOrigin`, persist the connection on approval,
and then re-dispatch or reject the queued request. -/
def step (s : BridgeState) : BridgeEv → BridgeState
  | .rpcSendTx r =>
    if ¬s.connected then { s with queuedRpc := some r, pendingOrigin := some r.origin }
    else beginTxStep s r
  | .estimateDone ok gasLimit fd =>
    match s.estimating with
    | [] => s
    | (r, draft) :: rest =>
      if ok then
        { s with estimating := rest, pendingTx := some (r, attachFees draft gasLimit fd) }
      else { s with estimating := rest }
  | .approveTx sendOk hash errMsg =>
    match s.pendingTx with
    | none => s
    | some (r, draft) =>
      if ¬s.unlocked then s
      else if sendOk then
        { s with sendAttempts := s.sendAttempts ++ [mkTxToSend draft s.address],
                 replies := s.replies ++ [⟨r.id, some hash, none⟩],
                 pendingTx := none }
      else
        { s with sendAttempts := s.sendAttempts ++ [mkTxToSend draft s.address],
                 replies := s.replies ++ [⟨r.id, none, some errMsg⟩],
                 pendingTx := none }
  | .denyTx =>
    match s.pendingTx with
    | none => s
    | some (r, _) =>
      { s with replies := s.replies ++ [⟨r.id, none, some "User rejected"⟩], pendingTx := none }
  | .approveConnect =>
    let s1 := { s with pendingOrigin := none,
                       connected := s.pendingOrigin.isSome || s.connected }
    match s1.queuedRpc with
    | none => s1
    | some r => beginTxStep { s1 with queuedRpc := none } r
  | .denyConnect =>
    let s1 := { s with pendingOrigin := none }
    match s1.queuedRpc with
    | none => s1
    | some r =>
      { s1 with queuedRpc := none,
                replies := s1.replies ++ [⟨r.id, none, some "User rejected"⟩] }

def run (s : BridgeState) (evs : List BridgeEv) : BridgeState :=
  evs.foldl step s

def txDemoAddr : String := "0xaaaaaaaaaaaaaaaaaaaaaaaaaaaaaaaaaaaaaaaa"

def txDemoRaw1 : RawTx :=
  ⟨some "0x1111111111111111111111111111111111111111", some "0x5", none, none, some 1⟩

def txDemoRaw2 : RawTx :=
  ⟨some "0x2222222222222222222222222222222222222222", none, none, none, none⟩

def txDemoR1 : TxRpc := ⟨1, "https://a.example", [txDemoRaw1]⟩

def txDemoR2 : TxRpc := ⟨2, "https://b.example", [txDemoRaw2]⟩

/-- Unlocked wallet, connected domain, nothing pending. -/
def txDemoS0 : BridgeState := ⟨true, txDemoAddr, true, none, none, none, [], [], []⟩

theorem beginTxApprovalResult_replyErr_id (u : Bool) (a : String) (rpc : TxRpc)
    (rid : Nat) (msg : String)
    (h : beginTxApprovalResult u a rpc = .replyErr rid msg) : rid = rpc.id := by
  unfold beginTxApprovalResult at h
  split at h
  · injection h with h1 h2
    exact h1.symm
  · split at h
    · injection h with h1 h2
      exact h1.symm
    · split at h
      · injection h with h1 h2
        exact h1.symm
      · split at h
        · injection h with h1 h2
          exact h1.symm
        · cases h

/-- **C1 counterexample** — With a transaction approval already pending
(request 1), a second incoming `eth_sendTransaction` (request 2, different
origin) is neither queued nor rejected with an error reply: `handleRpc` calls
`beginTxApproval` again, whose `setPendingTx` silently replaces the first
pending draft, and no reply is ever sent for request 1. -/
theorem C1_counterexample :
    (run txDemoS0 [.rpcSendTx txDemoR1]).pendingTx =
      some (txDemoR1, { normalizeDappTx txDemoRaw1 with fromAddr := some txDemoAddr }) ∧
    (run txDemoS0 [.rpcSendTx txDemoR1, .rpcSendTx txDemoR2]).pendingTx =
      some (txDemoR2, { normalizeDappTx txDemoRaw2 with fromAddr := some txDemoAddr }) ∧
    (run txDemoS0 [.rpcSendTx txDemoR1, .rpcSendTx txDemoR2]).replies = [] ∧
    (run txDemoS0 [.rpcSendTx txDemoR1, .rpcSendTx txDemoR2]).queuedRpc = none := by
  refine ⟨by decide, by decide, by decide, by decide⟩

/-- **C1 (amended)** — While a transaction approval is pending, a second
incoming `eth_sendTransaction` is (a) queued behind a connect approval when the
origin is not connected, or (b) rejected with an error reply when the wallet is
locked or the params are invalid, or (c) — when connected and valid — silently
replaces the first pending draft, the first request receiving no reply. -/
theorem C1_holds (s : BridgeState) (r : TxRpc) (p : TxRpc × TxDraft)
    (h : s.pendingTx = some p) :
    (¬s.connected ∧ (step s (.rpcSendTx r)).pendingTx = some p ∧
      (step s (.rpcSendTx r)).queuedRpc = some r ∧
      (step s (.rpcSendTx r)).replies = s.replies) ∨
    (s.connected ∧ (∃ msg, (step s (.rpcSendTx r)).replies = s.replies ++ [⟨r.id, none, some msg⟩]) ∧
      (step s (.rpcSendTx r)).pendingTx = some p) ∨
    (s.connected ∧ (∃ d, (step s (.rpcSendTx r)).pendingTx = some (r, d)) ∧
      (step s (.rpcSendTx r)).replies = s.replies) := by
  by_cases hc : s.connected
  · match hb : beginTxApprovalResult s.unlocked s.address r with
    | .replyErr rid msg =>
      have hrid : rid = r.id := beginTxApprovalResult_replyErr_id _ _ _ _ _ hb
      refine Or.inr (Or.inl ⟨hc, ⟨msg, ?_⟩, ?_⟩)
      · simp [step, hc, beginTxStep, hb, hrid]
      · simp [step, hc, beginTxStep, hb, h]
    | .pend rid draft =>
      refine Or.inr (Or.inr ⟨hc, ⟨draft, ?_⟩, ?_⟩)
      · simp [step, hc, beginTxStep, hb]
      · simp [step, hc, beginTxStep, hb]
  · exact Or.inl ⟨hc, by simp [step, hc, h], by simp [step, hc], by simp [step, hc]⟩

/-- Witness for `C1_holds`: applied in the concrete state where request 1 is
pending and request 2 arrives; the realized branch is the silent replacement. -/
theorem C1_witness :
    (¬(run txDemoS0 [.rpcSendTx txDemoR1]).connected ∧
      (step (run txDemoS0 [.rpcSendTx txDemoR1]) (.rpcSendTx txDemoR2)).pendingTx =
        some (txDemoR1, { normalizeDappTx txDemoRaw1 with fromAddr := some txDemoAddr }) ∧
      (step (run txDemoS0 [.rpcSendTx txDemoR1]) (.rpcSendTx txDemoR2)).queuedRpc =
        some txDemoR2 ∧
      (step (run txDemoS0 [.rpcSendTx txDemoR1]) (.rpcSendTx txDemoR2)).replies =
        (run txDemoS0 [.rpcSendTx txDemoR1]).replies) ∨
    ((run txDemoS0 [.rpcSendTx txDemoR1]).connected ∧
      (∃ msg, (step (run txDemoS0 [.rpcSendTx txDemoR1]) (.rpcSendTx txDemoR2)).replies =
        (run txDemoS0 [.rpcSendTx txDemoR1]).replies ++ [⟨txDemoR2.id, none, some msg⟩]) ∧
      (step (run txDemoS0 [.rpcSendTx txDemoR1]) (.rpcSendTx txDemoR2)).pendingTx =
        some (txDemoR1, { normalizeDappTx txDemoRaw1 with fromAddr := some txDemoAddr })) ∨
    ((run txDemoS0 [.rpcSendTx txDemoR1]).connected ∧
      (∃ d, (step (run txDemoS0 [.rpcSendTx txDemoR1]) (.rpcSendTx txDemoR2)).pendingTx =
        some (txDemoR2, d)) ∧
      (step (run txDemoS0 [.rpcSendTx txDemoR1]) (.rpcSendTx txDemoR2)).replies =
        (run txDemoS0 [.rpcSendTx txDemoR1]).replies) :=
  C1_holds (run txDemoS0 [.rpcSendTx txDemoR1]) txDemoR2
    (txDemoR1, { normalizeDappTx txDemoRaw1 with fromAddr := some txDemoAddr }) (by decide)

/-- **C5 counterexample** — Both directions of "exactly one reply" fail.
Zero replies: while request 1's transaction approval is pending, a second
`eth_sendTransaction` (request 2) replaces it; after the user approves, only
request 2 receives a reply, and request 1 has left the system (no pending or
queued slot references it) having received none.  Two replies: request 1 is
denied while its fee estimation is still in flight (the sheet's Reject button
is enabled during estimation) — it is replied `"User rejected"` — but the
estimation continuation's unconditional `setPendingTx` (line 832) then
re-pends the same request, and approving it delivers a second reply for the
same id. -/
theorem C5_counterexample :
    (run txDemoS0 [.rpcSendTx txDemoR1, .rpcSendTx txDemoR2,
        .approveTx true "0xhash" ""]).replies = [⟨2, some "0xhash", none⟩] ∧
    (run txDemoS0 [.rpcSendTx txDemoR1, .rpcSendTx txDemoR2,
        .approveTx true "0xhash" ""]).pendingTx = none ∧
    (run txDemoS0 [.rpcSendTx txDemoR1, .rpcSendTx txDemoR2,
        .approveTx true "0xhash" ""]).queuedRpc = none ∧
    (run txDemoS0 [.rpcSendTx txDemoR1, .denyTx,
        .estimateDone true 21000 (FeeData.mk (some 3) (some 2) none),
        .approveTx true "0xhash2" ""]).replies =
      [⟨1, none, some "User rejected"⟩, ⟨1, some "0xhash2", none⟩] := by
  refine ⟨by decide, by decide, by decide, by decide⟩

def replyIds (s : BridgeState) : List Nat :=
  s.replies.map Reply.rid

/-- Request ids currently known to the bridge: already-replied ids plus the ids
held in the pending-approval and queued-request slots. -/
def usedIds (s : BridgeState) : List Nat :=
  replyIds s ++
  (match s.pendingTx with | some (r, _) => [r.id] | none => []) ++
  (match s.queuedRpc with | some r => [r.id] | none => [])

/-- Well-formedness of the bridge state: no id has been replied to twice, and
the ids held in the pending/queued slots have not been replied to and differ
from each other. -/
structure BInv (s : BridgeState) : Prop where
  nodupReplies : (replyIds s).Nodup
  pendNotReplied : ∀ r d, s.pendingTx = some (r, d) → r.id ∉ replyIds s
  queueNotReplied : ∀ r, s.queuedRpc = some r → r.id ∉ replyIds s
  pendNeQueue : ∀ r d q, s.pendingTx = some (r, d) → s.queuedRpc = some q → r.id ≠ q.id

/-- Admissibility of one event: an incoming request uses an id the bridge has
not seen (the injected provider's `++rid` counter guarantees this on the page
side), and a completing fee estimation finds its own request still pending —
i.e. the deny-during-estimation race exhibited by `C5_counterexample` does not
occur. -/
def wfStep (s : BridgeState) (e : BridgeEv) : Bool :=
  match e with
  | .rpcSendTx r => decide (r.id ∉ usedIds s)
  | .estimateDone _ _ _ =>
    match s.estimating, s.pendingTx with
    | [], _ => true
    | (r, _) :: _, some (p, _) => decide (r.id = p.id)
    | (_, _) :: _, none => false
  | _ => true

def freshRun : BridgeState → List BridgeEv → Bool
  | _, [] => true
  | s, e :: es => wfStep s e && freshRun (step s e) es

theorem nodup_append_single {l : List Nat} {a : Nat} (h1 : l.Nodup) (h2 : a ∉ l) :
    (l ++ [a]).Nodup := by
  simp [List.nodup_append, h1, h2]

theorem notMem_append_single {l : List Nat} {a x : Nat} (h1 : x ∉ l) (h2 : x ≠ a) :
    x ∉ l ++ [a] := by
  simp [h1, h2]

theorem step_preserves_inv (s : BridgeState) (e : BridgeEv) (hInv : BInv s)
    (hWf : wfStep s e = true) : BInv (step s e) := by
  cases e with
  | rpcSendTx r =>
    have hf : r.id ∉ usedIds s := by simpa [wfStep] using hWf
    have hfr : r.id ∉ replyIds s := fun hm => hf (by simp [usedIds, hm])
    have hfp : ∀ p d, s.pendingTx = some (p, d) → r.id ≠ p.id := by
      intro p d hp he
      exact hf (by simp [usedIds, hp, he])
    have hfq : ∀ q, s.queuedRpc = some q → r.id ≠ q.id := by
      intro q hq he
      exact hf (by simp [usedIds, hq, he])
    by_cases hc : s.connected
    · simp only [step, hc, not_true_eq_false, if_false, ite_false]
      match hb : beginTxApprovalResult s.unlocked s.address r with
      | .replyErr rid msg =>
        have hrid : rid = r.id := beginTxApprovalResult_replyErr_id _ _ _ _ _ hb
        subst hrid
        simp only [beginTxStep, hb]
        refine ⟨?_, ?_, ?_, ?_⟩
        · simpa [replyIds] using nodup_append_single hInv.nodupReplies hfr
        · intro p d hp
          simp only [replyIds, List.map_append] at *
          exact notMem_append_single (hInv.pendNotReplied p d hp) (fun he => hfp p d hp he.symm)
        · intro q hq
          simp only [replyIds, List.map_append] at *
          exact notMem_append_single (hInv.queueNotReplied q hq) (fun he => hfq q hq he.symm)
        · intro p d q hp hq
          exact hInv.pendNeQueue p d q hp hq
      | .pend rid draft =>
        simp only [beginTxStep, hb]
        refine ⟨hInv.nodupReplies, ?_, hInv.queueNotReplied, ?_⟩
        · intro p d hp
          injection hp with hp'
          obtain ⟨h1, h2⟩ := Prod.mk.injEq .. ▸ hp'
          subst h1
          exact hfr
        · intro p d q hp hq
          injection hp with hp'
          obtain ⟨h1, h2⟩ := Prod.mk.injEq .. ▸ hp'
          subst h1
          exact hfq q hq
    · simp only [step, hc, not_false_eq_true, if_true, ite_true]
      refine ⟨hInv.nodupReplies, hInv.pendNotReplied, ?_, ?_⟩
      · intro q hq
        injection hq with hq'
        subst hq'
        exact hfr
      · intro p d q hp hq
        injection hq with hq'
        subst hq'
        exact fun he => hfp p d hp he.symm
  | estimateDone ok gasLimit fd =>
    match hest : s.estimating with
    | [] => simpa [step, hest] using hInv
    | (r, draft) :: rest =>
      match hp : s.pendingTx with
      | none => simp [wfStep, hest, hp] at hWf
      | some (p, dp) =>
        have hid : r.id = p.id := by simpa [wfStep, hest, hp] using hWf
        cases ok with
        | true =>
          simp only [step, hest, if_pos]
          refine ⟨hInv.nodupReplies, ?_, hInv.queueNotReplied, ?_⟩
          · intro p2 d2 h2
            injection h2 with h2'
            obtain ⟨h1, _⟩ := Prod.mk.injEq .. ▸ h2'
            subst h1
            rw [hid]
            exact hInv.pendNotReplied p dp hp
          · intro p2 d2 q h2 hq
            injection h2 with h2'
            obtain ⟨h1, _⟩ := Prod.mk.injEq .. ▸ h2'
            subst h1
            rw [hid]
            exact hInv.pendNeQueue p dp q hp hq
        | false =>
          simp only [step, hest, Bool.false_eq_true, if_false]
          exact ⟨hInv.nodupReplies, hInv.pendNotReplied, hInv.queueNotReplied,
            hInv.pendNeQueue⟩
  | approveTx sendOk hash errMsg =>
    match hp : s.pendingTx with
    | none => simpa [step, hp] using hInv
    | some (r, draft) =>
      by_cases hu : s.unlocked
      · have hrid : r.id ∉ replyIds s := hInv.pendNotReplied r draft hp
        cases sendOk with
        | true =>
          simp only [step, hp, hu, not_true_eq_false, if_false, ite_false, ite_true]
          refine ⟨?_, ?_, ?_, ?_⟩
          · simpa [replyIds] using nodup_append_single hInv.nodupReplies hrid
          · intro p d h
            cases h
          · intro q hq
            simp only [replyIds, List.map_append] at *
            exact notMem_append_single (hInv.queueNotReplied q hq)
              (fun he => hInv.pendNeQueue r draft q hp hq he.symm)
          · intro p d q h
            cases h
        | false =>
          simp only [step, hp, hu, not_true_eq_false, if_false, ite_false, Bool.false_eq_true]
          refine ⟨?_, ?_, ?_, ?_⟩
          · simpa [replyIds] using nodup_append_single hInv.nodupReplies hrid
          · intro p d h
            cases h
          · intro q hq
            simp only [replyIds, List.map_append] at *
            exact notMem_append_single (hInv.queueNotReplied q hq)
              (fun he => hInv.pendNeQueue r draft q hp hq he.symm)
          · intro p d q h
            cases h
      · simpa [step, hp, hu] using hInv
  | denyTx =>
    match hp : s.pendingTx with
    | none => simpa [step, hp] using hInv
    | some (r, draft) =>
      have hrid : r.id ∉ replyIds s := hInv.pendNotReplied r draft hp
      simp only [step, hp]
      refine ⟨?_, ?_, ?_, ?_⟩
      · simpa [replyIds] using nodup_append_single hInv.nodupReplies hrid
      · intro p d h
        cases h
      · intro q hq
        simp only [replyIds, List.map_append] at *
        exact notMem_append_single (hInv.queueNotReplied q hq)
          (fun he => hInv.pendNeQueue r draft q hp hq he.symm)
      · intro p d q h
        cases h
  | approveConnect =>
    match hq : s.queuedRpc with
    | none =>
      simp only [step, hq]
      exact ⟨hInv.nodupReplies, hInv.pendNotReplied, (fun q h => nomatch h),
        (fun p d q hp h => nomatch h)⟩
    | some r =>
      have hqr : r.id ∉ replyIds s := hInv.queueNotReplied r hq
      simp only [step, hq]
      match hb : beginTxApprovalResult s.unlocked s.address r with
      | .replyErr rid msg =>
        have hrid : rid = r.id := beginTxApprovalResult_replyErr_id _ _ _ _ _ hb
        subst hrid
        simp only [beginTxStep, hb]
        refine ⟨?_, ?_, ?_, ?_⟩
        · simpa [replyIds] using nodup_append_single hInv.nodupReplies hqr
        · intro p d hp
          simp only [replyIds, List.map_append] at *
          exact notMem_append_single (hInv.pendNotReplied p d hp)
            (fun he => hInv.pendNeQueue p d r hp hq he)
        · intro q h
          cases h
        · intro p d q _ h
          cases h
      | .pend rid draft =>
        simp only [beginTxStep, hb]
        refine ⟨hInv.nodupReplies, ?_, ?_, ?_⟩
        · intro p d hp
          injection hp with hp'
          obtain ⟨h1, h2⟩ := Prod.mk.injEq .. ▸ hp'
          subst h1
          exact hqr
        · intro q h
          cases h
        · intro p d q _ h
          cases h
  | denyConnect =>
    match hq : s.queuedRpc with
    | none =>
      simp only [step, hq]
      exact ⟨hInv.nodupReplies, hInv.pendNotReplied, (fun q h => nomatch h),
        (fun p d q hp h => nomatch h)⟩
    | some r =>
      have hqr : r.id ∉ replyIds s := hInv.queueNotReplied r hq
      simp only [step, hq]
      refine ⟨?_, ?_, ?_, ?_⟩
      · simpa [replyIds] using nodup_append_single hInv.nodupReplies hqr
      · intro p d hp
        simp only [replyIds, List.map_append] at *
        exact notMem_append_single (hInv.pendNotReplied p d hp)
          (fun he => hInv.pendNeQueue p d r hp hq he)
      · intro q h
        cases h
      · intro p d q _ h
        cases h

/-- **C5 (amended)** — Neither "never zero" nor "never two" holds of the code
(`C5_counterexample`): a pending or queued request overwritten by a later one
receives zero replies, and a request denied while its fee estimation is in
flight is re-pended by the continuation's unconditional `setPendingTx`
(line 832) and can be replied a second time on approval.  What does hold:
every request resolves to *at most* one reply — reply ids are never
duplicated — on every trace whose request ids are fresh and whose estimation
continuations complete while their request is still the pending one (i.e.
absent the deny-during-estimation race). -/
theorem C5_holds (s : BridgeState) (evs : List BridgeEv)
    (hInv : BInv s) (hFresh : freshRun s evs = true) :
    ((run s evs).replies.map Reply.rid).Nodup := by
  induction evs generalizing s with
  | nil => exact hInv.nodupReplies
  | cons e es ih =>
    simp only [freshRun, Bool.and_eq_true] at hFresh
    exact ih (step s e) (step_preserves_inv s e hInv hFresh.1) hFresh.2

/-- Witness for `C5_holds` on a concrete well-formed trace (the estimation
completes while its request is still pending). -/
theorem C5_witness :
    ((run txDemoS0 [.rpcSendTx txDemoR1,
        .estimateDone true 21000 (FeeData.mk (some 3) (some 2) none),
        .approveTx true "0xhash" "", .rpcSendTx txDemoR2,
        .denyTx]).replies.map Reply.rid).Nodup :=
  C5_holds txDemoS0 [.rpcSendTx txDemoR1,
      .estimateDone true 21000 (FeeData.mk (some 3) (some 2) none),
      .approveTx true "0xhash" "", .rpcSendTx txDemoR2, .denyTx]
    ⟨(by decide), (fun r d h => nomatch h), (fun r h => nomatch h),
     (fun r d q h => nomatch h)⟩
    (by decide)

theorem step_sendAttempts_chainId (s : BridgeState) (e : BridgeEv)
    (h : ∀ t ∈ s.sendAttempts, t.chainId = ELECTRONEUM.chainId) :
    ∀ t ∈ (step s e).sendAttempts, t.chainId = ELECTRONEUM.chainId := by
  cases e with
  | rpcSendTx r =>
    by_cases hc : s.connected
    · match hb : beginTxApprovalResult s.unlocked s.address r with
      | .replyErr rid msg => simpa [step, hc, beginTxStep, hb] using h
      | .pend rid draft => simpa [step, hc, beginTxStep, hb] using h
    · simpa [step, hc] using h
  | approveTx sendOk hash errMsg =>
    match hp : s.pendingTx with
    | none => simpa [step, hp] using h
    | some (r, draft) =>
      by_cases hu : s.unlocked
      · cases sendOk with
        | true =>
          intro t ht
          simp only [step, hp, hu, not_true_eq_false, if_false, ite_false, ite_true,
            List.mem_append, List.mem_singleton] at ht
          rcases ht with ht | ht
          · exact h t ht
          · rw [ht]; rfl
        | false =>
          intro t ht
          simp only [step, hp, hu, not_true_eq_false, if_false, ite_false,
            Bool.false_eq_true, List.mem_append, List.mem_singleton] at ht
          rcases ht with ht | ht
          · exact h t ht
          · rw [ht]; rfl
      · simpa [step, hp, hu] using h
  | denyTx =>
    match hp : s.pendingTx with
    | none => simpa [step, hp] using h
    | some (r, draft) => simpa [step, hp] using h
  | estimateDone ok gasLimit fd =>
    match hest : s.estimating with
    | [] => simpa [step, hest] using h
    | (r, draft) :: rest =>
      cases ok with
      | true => simpa [step, hest] using h
      | false => simpa [step, hest] using h
  | approveConnect =>
    match hq : s.queuedRpc with
    | none => simpa [step, hq] using h
    | some r =>
      match hb : beginTxApprovalResult s.unlocked s.address r with
      | .replyErr rid msg => simpa [step, hq, beginTxStep, hb] using h
      | .pend rid draft => simpa [step, hq, beginTxStep, hb] using h
  | denyConnect =>
    match hq : s.queuedRpc with
    | none => simpa [step, hq] using h
    | some r => simpa [step, hq] using h

/-- **C3** — The transaction actually signed and broadcast on approval
(`approveTx`'s `txToSend`, modelled by `mkTxToSend`) always carries
`chainId = ELECTRONEUM.chainId`, regardless of any `chainId` carried by the
pending draft (and hence regardless of what the page supplied); consequently in
every run of the bridge, every transaction handed to `signer.sendTransaction`
has the wallet's single fixed network id — the wallet never signs for a
foreign chain. -/
theorem C3_holds (s : BridgeState) (evs : List BridgeEv)
    (h : ∀ t ∈ s.sendAttempts, t.chainId = ELECTRONEUM.chainId) :
    (∀ d a, (mkTxToSend d a).chainId = ELECTRONEUM.chainId) ∧
    (∀ t ∈ (run s evs).sendAttempts, t.chainId = ELECTRONEUM.chainId) := by
  refine ⟨fun d a => rfl, ?_⟩
  induction evs generalizing s with
  | nil => exact h
  | cons e es ih => exact ih (step s e) (step_sendAttempts_chainId s e h)

/-- Witness for `C3_holds`: a draft whose page-supplied `chainId` is
overwritten, and a run whose single broadcast attempt carries 52014. -/
theorem C3_witness :
    (mkTxToSend { normalizeDappTx txDemoRaw1 with chainId := 1 } txDemoAddr).chainId =
      ELECTRONEUM.chainId ∧
    ((run txDemoS0 [.rpcSendTx txDemoR1, .approveTx true "0xhash" ""]).sendAttempts.all
      (fun t => t.chainId == ELECTRONEUM.chainId)) = true := by
  have H := C3_holds txDemoS0 [.rpcSendTx txDemoR1, .approveTx true "0xhash" ""]
    (fun t ht => nomatch ht)
  refine ⟨H.1 _ txDemoAddr, ?_⟩
  rw [List.all_eq_true]
  intro t ht
  have hc := H.2 t ht
  simp [hc]
